import Mathlib

set_option maxRecDepth 8000

/-!
Verification development for the pghq/go-datastore data-access layer.

Shallow embedding of:
- the `placeholder.ReplacePlaceholders` rewriter (database/driver/sql.go),
- the error taxonomy and mapping of the postgres adapter (database/driver/postgres.go),
- the `isLocalhost` host classifier (database/driver/sql.go),
- the `Txn.List` read path of the transaction unit of work,
- the `applyMigration` migration/seed orchestrator and `NewSQL` construction
  (database/driver/sql.go).

External collaborators (the goose migration engine, the pgx driver, the go-tea
error library) are modelled as abstract oracles / event traces: the embedding
records the sequence of invocations the orchestrator issues and threads each
invocation's result back from an oracle parameter.
-/

/-! ## Placeholder rewriter: `placeholder.ReplacePlaceholders`

The Go loop repeatedly finds the next `?`; a `??` pair is collapsed to a
literal `?` (not counted), a lone `?` becomes `<token><n>` for a 1-based
counter `n`.  Embedded as structural recursion over the character list; the
Go version copies the chunk before each `?` verbatim, which the
character-by-character recursion reproduces exactly.
-/

def replaceAux (ph : String) : List Char → Nat → List Char
  | [], _ => []
  | c :: rest, i =>
    if c = '?' then
      match rest with
      | d :: rest2 =>
        if d = '?' then
          '?' :: replaceAux ph rest2 i
        else
          ph.data ++ (Nat.repr (i + 1)).data ++ replaceAux ph (d :: rest2) (i + 1)
      | [] => ph.data ++ (Nat.repr (i + 1)).data ++ replaceAux ph [] (i + 1)
    else c :: replaceAux ph rest i

def ReplacePlaceholders (ph : String) (sql : String) : String :=
  if ph = "" ∨ ph = "?" then sql else String.mk (replaceAux ph sql.data 0)

/-- Tokens of a SQL string as the spec describes them: ordinary characters,
escaped `??` pairs, and placeholder holes. Second definition, written from the
spec's words, used to state the refinement part of the rewriter claim. -/
inductive SqlTok
  | lit (c : Char)
  | escaped
  | hole
deriving DecidableEq

def specTokenize : List Char → List SqlTok
  | [] => []
  | c :: rest =>
    if c = '?' then
      match rest with
      | d :: rest2 =>
        if d = '?' then SqlTok.escaped :: specTokenize rest2
        else SqlTok.hole :: specTokenize (d :: rest2)
      | [] => [SqlTok.hole]
    else SqlTok.lit c :: specTokenize rest

def specRender (ph : String) : List SqlTok → Nat → List Char
  | [], _ => []
  | SqlTok.lit c :: rest, n => c :: specRender ph rest n
  | SqlTok.escaped :: rest, n => '?' :: specRender ph rest n
  | SqlTok.hole :: rest, n => ph.data ++ (Nat.repr (n + 1)).data ++ specRender ph rest (n + 1)

/-- Spec-side rewriter: tokenize, then render each non-escaped hole as
`<token><n>` with a 1-based left-to-right counter, each escaped pair as a
single literal `?` without counting it. -/
def specReplacePlaceholders (ph : String) (sql : String) : String :=
  String.mk (specRender ph (specTokenize sql.data) 0)

/-! ## Error taxonomy of the postgres adapter (database/driver/postgres.go)

The go-tea `trail` constructors are modelled by the kind they tag the error
with plus its message: `NewErrorNotFound` tags `notFound`, `NewErrorNoContent`
tags `noContent`. -/

inductive TrailKind
  | notFound
  | noContent
deriving DecidableEq

structure TrailError where
  kind : TrailKind
  message : String
deriving DecidableEq

/-- `ErrNotFound = trail.NewErrorNotFound("the requested item does not exist")` -/
def ErrNotFound : TrailError :=
  TrailError.mk TrailKind.notFound "the requested item does not exist"

/-- `ErrNoResults = trail.NewErrorNoContent("there are no items matching your search criteria")` -/
def ErrNoResults : TrailError :=
  TrailError.mk TrailKind.noContent "there are no items matching your search criteria"

/-- `ErrConflict = trail.NewErrorNoContent("there was a conflict processing your request")` -/
def ErrConflict : TrailError :=
  TrailError.mk TrailKind.noContent "there was a conflict processing your request"

/-- Errors coming back from the raw pgx backend, before the adapter maps them. -/
inductive BackendErr
  | noRows
  | pgError (code : String)
  | other (msg : String)
deriving DecidableEq

/-- Error type observed by callers of the adapter: either a raw backend error
that passed through unmapped, or one of the mapped semantic errors. -/
inductive DbErr
  | backend (e : BackendErr)
  | mapped (e : TrailError)
deriving DecidableEq

/-- `pgerrcode.IsIntegrityConstraintViolation`: true exactly for SQLSTATE
class 23 codes (external library; class test on the two-digit code class). -/
def isIntegrityConstraintViolation (code : String) : Bool :=
  code.data.take 2 = ['2', '3']

/-- `pgTxn.Get`: a `pgx.ErrNoRows` result becomes `ErrNotFound`; every other
error passes through unchanged. -/
def pgTxnGet (r : Option BackendErr) : Option DbErr :=
  match r with
  | some BackendErr.noRows => some (DbErr.mapped ErrNotFound)
  | some e => some (DbErr.backend e)
  | none => none

/-- `pgTxn.List`: a successful select leaving the destination slice nil
becomes `ErrNoResults`; backend errors pass through unchanged. -/
def pgTxnList (r : Option BackendErr) (destIsNil : Bool) : Option DbErr :=
  match r with
  | some e => some (DbErr.backend e)
  | none => if destIsNil then some (DbErr.mapped ErrNoResults) else none

/-- `pgTxn.Exec`: a `pgconn.PgError` whose code is an integrity-constraint
violation becomes `ErrConflict`; every other error passes through unchanged. -/
def pgTxnExec (r : Option BackendErr) : Option DbErr :=
  match r with
  | some (BackendErr.pgError code) =>
    if isIntegrityConstraintViolation code then some (DbErr.mapped ErrConflict)
    else some (DbErr.backend (BackendErr.pgError code))
  | some e => some (DbErr.backend e)
  | none => none

/-- The claim's reading of the taxonomy: the three mapped errors carry three
pairwise-distinct semantic kinds. -/
def errorKindsPairwiseDistinct : Prop :=
  ErrNotFound.kind ≠ ErrNoResults.kind ∧
  ErrNotFound.kind ≠ ErrConflict.kind ∧
  ErrNoResults.kind ≠ ErrConflict.kind

/-! ## Host classifier: `isLocalhost` (database/driver/sql.go)

`strings.Split(host, ":")[0]` is exactly the prefix of `host` before its
first `:` (the whole string when there is none). -/

def firstHostSegment (host : String) : String :=
  String.mk (host.data.takeWhile (fun c => c ≠ ':'))

def isLocalhost (host : String) : Bool :=
  firstHostSegment host == "localhost" ||
  firstHostSegment host == "host.docker.internal" ||
  firstHostSegment host == "db"

/-! ## Transaction read path: `Txn.List` (ark package)

The pending-view channel (`tx.views`) is a Go buffered channel with a fixed
capacity and no receiver during `List`; a `select` send with a `default`
branch succeeds exactly when fewer elements than the capacity are buffered. -/

abbrev Key := String

abbrev Err := String

/-- `tea.NewError("read batch size exhausted")`. -/
def batchExhaustedErr : Err := "read batch size exhausted"

/-- go-tea `tea.Error`: annotates an error with a stacktrace but preserves the
observable error value; modelled as the identity on the value. -/
def teaError (e : Err) : Err := e

structure TxView (α : Type) where
  key : Key
  value : α
deriving DecidableEq

structure Txn (α : Type) where
  err : Option Err
  cache : List (Key × α)
  views : List (TxView α)
  viewCap : Nat

/-- Modelled from the spec: the db package's query options (not under src/):
the logical query options (filters, pagination, ordering) supplied by the
caller. -/
structure QueryOpts where
  filter : String
  orderBy : String
  limit : Nat
deriving DecidableEq

/-- Modelled from the spec: `db.QueryWith(opts).CacheKey` (not under src/):
a byte sequence derived deterministically from the logical query options. -/
def cacheKeyOf (q : QueryOpts) : Key :=
  q.filter ++ "|" ++ q.orderBy ++ "|" ++ Nat.repr q.limit

/-- View-cache `Get(key) -> (value, present)`. -/
def cacheGet {α : Type} (c : List (Key × α)) (k : Key) : Option α :=
  (c.find? (fun p => p.1 == k)).map (fun p => p.2)

/-- Modelled from the spec: `db.Copy` (not under src/): copy the cached value
into the destination shape and return; the copied value together with a nil
error. -/
def dbCopy {α : Type} (src : α) : Option Err × α := (none, src)

/-- Observable outcome of one `Txn.List` call: the returned error, the final
destination value (`none` when never written), the pending-view queue after
the call, and whether the backend / the cache were consulted. -/
structure ListOutcome (α : Type) where
  result : Option Err
  dest : Option α
  viewsAfter : List (TxView α)
  backendCalled : Bool
  cacheQueried : Bool
deriving DecidableEq

/-- `Txn.List`: error short-circuit, cache consultation, backend fall-through,
bounded non-blocking enqueue of the new view.  The backend call's behaviour is
a parameter `b` (its error, or the value it writes into the destination). -/
def txnList {α : Type} (tx : Txn α) (q : QueryOpts) (b : Except Err α) : ListOutcome α :=
  match tx.err with
  | some e => ListOutcome.mk (some (teaError e)) none tx.views false false
  | none =>
    match cacheGet tx.cache (cacheKeyOf q) with
    | some cv =>
      ListOutcome.mk (dbCopy cv).1 (some (dbCopy cv).2) tx.views false true
    | none =>
      match b with
      | Except.error e => ListOutcome.mk (some (teaError e)) none tx.views true true
      | Except.ok v =>
        if tx.views.length < tx.viewCap then
          ListOutcome.mk none (some v) (tx.views ++ [TxView.mk (cacheKeyOf q) v]) true true
        else
          ListOutcome.mk (some batchExhaustedErr) (some v) tx.views true true

/-! ## Migration/seed orchestrator: `applyMigration` and `NewSQL`
(database/driver/sql.go)

goose operations are events; the backend is an oracle mapping the history of
already-issued operations and the next operation to a result (`none` =
success, `noNext` = goose.ErrNoNextVersion, `fatal` = any other error). -/

inductive GErr
  | noNext
  | fatal (n : Nat)
deriving DecidableEq

inductive GOp
  | upTo (dir : String) (version : Nat)
  | upSeed (path : String)
  | upAll (dir : String)
  | down (dir : String)
deriving DecidableEq

abbrev Oracle := List GOp → GOp → Option GErr

structure DirEntry where
  name : String
  isDir : Bool
deriving DecidableEq

/-- Inputs of one `applyMigration` run: the two directory listings, the
configured directory names, and the recorded version `goose.GetDBVersion`
reports (its error is discarded by the code). -/
structure MigInput where
  migrationEntries : List DirEntry
  seedEntries : List DirEntry
  migrationDirectory : String
  seedDirectory : String
  dbVersion : Int
deriving DecidableEq

/-- Result of one `applyMigration` run: the directories enumerated, the
sequence of goose operations issued, and the returned error. -/
structure MigRun where
  dirsRead : List String
  trace : List GOp
  err : Option GErr
deriving DecidableEq

def digitsToNat (ds : List Char) : Nat :=
  ds.foldl (fun a c => a * 10 + (c.toNat - 48)) 0

/-- `migrationFile = ^(\d+)_.+\.sql$` applied to an entry name, returning the
numeric prefix on a match.  The capture is the maximal leading digit run; the
next character must be `_`; the remainder must be at least one non-newline
character followed by the literal `.sql` ending the name. -/
def parseMigrationName (name : String) : Option Nat :=
  let ds := name.data.takeWhile Char.isDigit
  let rest := name.data.dropWhile Char.isDigit
  if ds = [] then none
  else
    match rest with
    | '_' :: tail =>
      if 5 ≤ tail.length ∧ tail.drop (tail.length - 4) = ['.', 's', 'q', 'l']
          ∧ (tail.take (tail.length - 4)).all (fun c => c ≠ '\n') then
        some (digitsToNat ds)
      else none
    | _ => none

/-- `seedFile = ^(\d+).*$` applied to an entry name: a nonempty maximal
leading digit run, with no newline afterwards (`.` never matches a newline). -/
def parseSeedName (name : String) : Option Nat :=
  let ds := name.data.takeWhile Char.isDigit
  if ds = [] then none
  else if (name.data.dropWhile Char.isDigit).all (fun c => c ≠ '\n') then
    some (digitsToNat ds)
  else none

/-- `maxMigrationVersion`: fold over the migration directory entries, keeping
the largest parsed numeric prefix (0 when none match). -/
def maxMigVersion (entries : List DirEntry) : Nat :=
  entries.foldl
    (fun acc e =>
      match parseMigrationName e.name with
      | some v => if v > acc then v else acc
      | none => acc)
    0

/-- `strings.TrimSuffix(seedDirectory, "/")`: drop one trailing slash. -/
def trimSlash (s : String) : String :=
  match s.data.reverse with
  | '/' :: rest => String.mk rest.reverse
  | _ => s

/-- Go map assignment `seeds[version] = path`: replace an existing binding in
place, otherwise append. -/
def upsert (m : List (Int × String)) (k : Int) (v : String) : List (Int × String) :=
  if m.any (fun p => p.1 == k) then
    m.map (fun p => if p.1 == k then (k, v) else p)
  else m ++ [(k, v)]

/-- Go map lookup `seeds[seedVersion]`. -/
def lookupSeed (m : List (Int × String)) (k : Int) : Option String :=
  (m.find? (fun p => p.1 == k)).map (fun p => p.2)

/-- The seed-enumeration loop: directories matching the seed pattern are
recorded as `version ↦ trimmedSeedDir/name`, tracking the minimum version
seen (sentinel `-1` before the first). -/
def buildSeeds (seedDir : String) : List DirEntry → List (Int × String) × Int → List (Int × String) × Int
  | [], acc => acc
  | e :: rest, (m, minV) =>
    if e.isDir then
      match parseSeedName e.name with
      | some v =>
        buildSeeds seedDir rest
          (upsert m (Int.ofNat v) (trimSlash seedDir ++ "/" ++ e.name),
           if minV = -1 ∨ (Int.ofNat v) < minV then Int.ofNat v else minV)
      | none => buildSeeds seedDir rest (m, minV)
    else buildSeeds seedDir rest (m, minV)

/-- Seeds and their minimum version for one run: enumerated only when running
against a local host with a configured seed directory. -/
def seedsOf (localhost : Bool) (inp : MigInput) : List (Int × String) × Int :=
  if localhost ∧ inp.seedDirectory ≠ "" then
    buildSeeds inp.seedDirectory inp.seedEntries ([], -1)
  else ([], -1)

/-- The interleaving loop body over the remaining iteration indices: one
`goose.UpTo(i+1)` per index, breaking on a fatal result; then, when a seed
exists at `i + minSeedVersion` and that version exceeds the recorded version,
one unversioned seed `goose.Up`, also breaking on a fatal result.  The error
variable is overwritten by every operation, exactly as in the source. -/
def runLoop (o : Oracle) (dir : String) (seeds : List (Int × String)) (minSeed dbVer : Int) :
    List Nat → List GOp → Option GErr → List GOp × Option GErr
  | [], tr, e => (tr, e)
  | i :: rest, tr, _ =>
    match o tr (GOp.upTo dir (i + 1)) with
    | some (GErr.fatal n) => (tr ++ [GOp.upTo dir (i + 1)], some (GErr.fatal n))
    | r =>
      match lookupSeed seeds ((Int.ofNat i) + minSeed) with
      | some sd =>
        if (Int.ofNat i) + minSeed > dbVer then
          match o (tr ++ [GOp.upTo dir (i + 1)]) (GOp.upSeed sd) with
          | some (GErr.fatal n) =>
            (tr ++ [GOp.upTo dir (i + 1), GOp.upSeed sd], some (GErr.fatal n))
          | r2 =>
            runLoop o dir seeds minSeed dbVer rest (tr ++ [GOp.upTo dir (i + 1), GOp.upSeed sd]) r2
        else runLoop o dir seeds minSeed dbVer rest (tr ++ [GOp.upTo dir (i + 1)]) r
      | none => runLoop o dir seeds minSeed dbVer rest (tr ++ [GOp.upTo dir (i + 1)]) r

/-- The interleaving phase: `steps = max(maxMigrationVersion, len(seeds))`
iterations, run only on a local host. -/
def interleavePhase (o : Oracle) (localhost : Bool) (inp : MigInput) : List GOp × Option GErr :=
  if localhost then
    runLoop o inp.migrationDirectory (seedsOf localhost inp).1 (seedsOf localhost inp).2
      inp.dbVersion
      (List.range (Nat.max (maxMigVersion inp.migrationEntries) (seedsOf localhost inp).1.length))
      [] none
  else ([], none)

/-- The final catch-all `goose.Up(db, migrationDirectory)`, issued only when
the error variable is nil after the interleaving phase. -/
def catchAllPhase (o : Oracle) (dir : String) (pr : List GOp × Option GErr) :
    List GOp × Option GErr :=
  if pr.2 = none then (pr.1 ++ [GOp.upAll dir], o pr.1 (GOp.upAll dir)) else pr

/-- The failure branch: on a fatal error (anything but nil and noNext) issue
`goose.Down` on the migration directory and on every enumerated seed
(results discarded) and surface the error; otherwise return success. -/
def rollbackPhase (dir : String) (seeds : List (Int × String)) (pr : List GOp × Option GErr) :
    List GOp × Option GErr :=
  match pr.2 with
  | some (GErr.fatal n) =>
    (pr.1 ++ GOp.down dir :: seeds.map (fun s => GOp.down s.2), some (GErr.fatal n))
  | _ => (pr.1, none)

/-- The directories enumerated by one run: the migration directory always, the
seed directory only on a local host with a configured seed directory. -/
def dirsReadOf (localhost : Bool) (inp : MigInput) : List String :=
  inp.migrationDirectory ::
    (if localhost ∧ inp.seedDirectory ≠ "" then [inp.seedDirectory] else [])

/-- `applyMigration`: enumerate, interleave migrations and seeds on a local
host, run the catch-all, roll back on fatal failure. -/
def applyMigration (o : Oracle) (localhost : Bool) (inp : MigInput) : MigRun :=
  MigRun.mk (dirsReadOf localhost inp)
    (rollbackPhase inp.migrationDirectory (seedsOf localhost inp).1
      (catchAllPhase o inp.migrationDirectory (interleavePhase o localhost inp))).1
    (rollbackPhase inp.migrationDirectory (seedsOf localhost inp).1
      (catchAllPhase o inp.migrationDirectory (interleavePhase o localhost inp))).2

inductive NewSQLErr
  | unrecognizedDialect
  | connectErr
  | migrationErr (e : GErr)
deriving DecidableEq

structure SQLHandle where
  dialect : String
deriving DecidableEq

/-- `NewSQL`: dialect gate, backend construction (its success is the
`connectOk` parameter), then — when a migration filesystem and directory are
configured — the orchestrator; any orchestrator error aborts construction. -/
def NewSQL (o : Oracle) (dialect host : String) (connectOk : Bool)
    (mig : Option MigInput) : Except NewSQLErr SQLHandle :=
  if dialect = "postgres" ∨ dialect = "redshift" then
    if connectOk then
      match mig with
      | some inp =>
        if inp.migrationDirectory = "" then Except.ok (SQLHandle.mk dialect)
        else
          match (applyMigration o (isLocalhost host) inp).err with
          | some e => Except.error (NewSQLErr.migrationErr e)
          | none => Except.ok (SQLHandle.mk dialect)
      | none => Except.ok (SQLHandle.mk dialect)
    else Except.error NewSQLErr.connectErr
  else Except.error NewSQLErr.unrecognizedDialect

/-- Spec-side shape of the interleaving phase's trace when no operation fails
fatally: for each index in order, the `UpTo(i+1)` step, followed by the seed
at slot `i + minSeedVersion` exactly when it exists and exceeds the recorded
version. -/
def interleaveSpec (dir : String) (seeds : List (Int × String)) (minSeed dbVer : Int) :
    List Nat → List GOp
  | [] => []
  | i :: rest =>
    GOp.upTo dir (i + 1) ::
      ((match lookupSeed seeds ((Int.ofNat i) + minSeed) with
        | some sd => if (Int.ofNat i) + minSeed > dbVer then [GOp.upSeed sd] else []
        | none => []) ++ interleaveSpec dir seeds minSeed dbVer rest)

/-! ## Concrete instances used by witnesses and counterexamples -/

/-- An oracle on which every goose operation succeeds. -/
def okOracle : Oracle := fun _ _ => none

/-- An oracle on which every `UpTo` reports no next version and everything
else succeeds: a backend whose recorded version is already ahead of every
requested target. -/
def noNextOracle : Oracle := fun _ op =>
  match op with
  | GOp.upTo _ _ => some GErr.noNext
  | _ => none

/-- An oracle failing fatally on the migration step targeting version 2. -/
def failV2Oracle : Oracle := fun _ op =>
  match op with
  | GOp.upTo _ 2 => some (GErr.fatal 7)
  | _ => none

/-- Migrations {1,2,3}, seeds {1 ↦ seedA, 2 ↦ seedB}, recorded version 0. -/
def migC3 : MigInput :=
  MigInput.mk
    [DirEntry.mk "1_users.sql" false, DirEntry.mk "2_posts.sql" false,
     DirEntry.mk "3_comments.sql" false]
    [DirEntry.mk "1_seedA" true, DirEntry.mk "2_seedB" true]
    "migrations" "seeds" 0

/-- Migrations {1,2}, no seed directory, recorded version 2 (already
converged). -/
def migC6 : MigInput :=
  MigInput.mk [DirEntry.mk "1_a.sql" false, DirEntry.mk "2_b.sql" false]
    [] "migrations" "" 2

/-- Migrations {1,2}, seeds {1 ↦ seedA}, recorded version 0. -/
def migC2 : MigInput :=
  MigInput.mk [DirEntry.mk "1_a.sql" false, DirEntry.mk "2_b.sql" false]
    [DirEntry.mk "1_seedA" true] "migrations" "seeds" 0

/-- A migration plus a populated seed directory, used to show seeds stay
untouched off a local host. -/
def migC8 : MigInput :=
  MigInput.mk [DirEntry.mk "1_a.sql" false]
    [DirEntry.mk "1_seedA" true] "migrations" "seeds" 0

/-- A transaction with no recorded error, an empty cache, and a pending-view
queue already at capacity (one buffered view, capacity one). -/
def txFull : Txn Nat :=
  Txn.mk none [] [TxView.mk "k0" 0] 1

/-- A transaction holding a recorded error. -/
def txErr : Txn Nat :=
  Txn.mk (some "boom") [("a|b|1", 5)] [] 4

/-- A transaction whose cache holds a value under the fingerprint of `qHit`. -/
def txHit : Txn Nat :=
  Txn.mk none [("f|o|2", 99)] [] 4

def qC1 : QueryOpts := QueryOpts.mk "t" "id" 10

def qHit : QueryOpts := QueryOpts.mk "f" "o" 2

/-! ## Helper lemmas -/

theorem str_data_append (s t : String) : (s ++ t).data = s.data ++ t.data := by
  cases s
  cases t
  rfl

theorem takeWhile_all_append (p : Char → Bool) :
    ∀ (xs ys : List Char), (∀ x ∈ xs, p x = true) → ∀ y, p y = false →
      (xs ++ y :: ys).takeWhile p = xs
  | [], ys, _, y, hy => by simp [List.takeWhile, hy]
  | x :: xs, ys, hx, y, hy => by
    have h1 : p x = true := hx x (List.mem_cons_self x xs)
    have h2 : ∀ a ∈ xs, p a = true := fun a ha => hx a (List.mem_cons_of_mem x ha)
    simp [List.takeWhile, h1, takeWhile_all_append p xs ys h2 y hy]

theorem replaceAux_eq_specRender (ph : String) :
    ∀ (cs : List Char) (i : Nat), replaceAux ph cs i = specRender ph (specTokenize cs) i
  | [], _ => rfl
  | c :: rest, i => by
    rw [replaceAux.eq_def, specTokenize.eq_def]
    by_cases hc : c = '?'
    · subst hc
      match rest with
      | [] => simp [replaceAux, specRender]
      | d :: rest2 =>
        by_cases hd : d = '?'
        · subst hd
          simp [specRender, replaceAux_eq_specRender ph rest2 i]
        · simp [specRender, hd, replaceAux_eq_specRender ph (d :: rest2) (i + 1)]
    · simp [specRender, hc, replaceAux_eq_specRender ph rest i]

/-! ## Claim theorems: rewriter, error taxonomy, host classifier -/

/-- C7: with a token that is neither empty nor `?`, the rewriter replaces each
non-escaped `?` by `<token><n>` for a 1-based left-to-right counter, collapses
each escaped `??` to a literal `?` without counting it, and leaves other
characters unchanged (stated as agreement with the spec-side two-pass
rewriter on every input); with token `""` or `"?"` it is the identity; and on
`"? = ? and ?? = ?"` with token `"$"` it yields `"$1 = $2 and ? = $3"`. -/
theorem replacePlaceholders_spec :
    (∀ sql, ReplacePlaceholders "" sql = sql) ∧
    (∀ sql, ReplacePlaceholders "?" sql = sql) ∧
    ReplacePlaceholders "$" "? = ? and ?? = ?" = "$1 = $2 and ? = $3" ∧
    (∀ ph sql, ph ≠ "" → ph ≠ "?" →
      ReplacePlaceholders ph sql = specReplacePlaceholders ph sql) := by
  refine ⟨fun sql => by simp [ReplacePlaceholders], fun sql => by simp [ReplacePlaceholders],
    by decide, fun ph sql h1 h2 => ?_⟩
  have hn : ¬(ph = "" ∨ ph = "?") := by
    intro h
    cases h with
    | inl h => exact h1 h
    | inr h => exact h2 h
  rw [ReplacePlaceholders, if_neg hn, specReplacePlaceholders]
  exact congrArg String.mk (replaceAux_eq_specRender ph sql.data 0)

/-- C7 witness: the refinement conjunct applied at a concrete token and
input. -/
theorem replacePlaceholders_spec_witness :
    ReplacePlaceholders "$" "a?b" = specReplacePlaceholders "$" "a?b" :=
  replacePlaceholders_spec.2.2.2 "$" "a?b" (by decide) (by decide)

/-- C5 counterexample: the three mapped errors do not carry pairwise-distinct
semantic kinds — `ErrNoResults` and `ErrConflict` are both constructed with
the NoContent kind. -/
theorem errorKinds_not_pairwise_distinct : ¬ errorKindsPairwiseDistinct := by
  intro h
  exact h.2.2 (by decide)

/-- C5 amended: the three mapped errors are pairwise-distinct values, the
`NotFound` kind is distinct from the kind of the other two, but `ErrNoResults`
and `ErrConflict` share the NoContent kind; the mapping sends backend
"no rows" to `ErrNotFound`, an empty list result to `ErrNoResults`, and every
integrity-constraint-violation code to `ErrConflict`. -/
theorem errorTaxonomy_mapping :
    ErrNotFound ≠ ErrNoResults ∧ ErrNotFound ≠ ErrConflict ∧ ErrNoResults ≠ ErrConflict ∧
    ErrNotFound.kind ≠ ErrNoResults.kind ∧ ErrNoResults.kind = ErrConflict.kind ∧
    pgTxnGet (some BackendErr.noRows) = some (DbErr.mapped ErrNotFound) ∧
    pgTxnList none true = some (DbErr.mapped ErrNoResults) ∧
    (∀ code, isIntegrityConstraintViolation code = true →
      pgTxnExec (some (BackendErr.pgError code)) = some (DbErr.mapped ErrConflict)) := by
  refine ⟨by decide, by decide, by decide, by decide, by decide, by decide, by decide,
    fun code h => ?_⟩
  simp [pgTxnExec, h]

/-- C5 witness: the integrity-constraint conjunct applied at the concrete
unique-violation SQLSTATE 23505. -/
theorem errorTaxonomy_mapping_witness :
    pgTxnExec (some (BackendErr.pgError "23505")) = some (DbErr.mapped ErrConflict) :=
  errorTaxonomy_mapping.2.2.2.2.2.2.2 "23505" (by decide)

/-- C10: the host classifier compares only the segment before the first `:`
against exactly {localhost, host.docker.internal, db}: for any colon-free
name, `name:<port>` is classified by membership of `name` in that allow-list
(the port is ignored); `127.0.0.1` is non-local; and every host classified
local has its first segment in the allow-list. -/
theorem isLocalhost_allowlist :
    (∀ name port : String, (∀ c ∈ name.data, c ≠ ':') →
      isLocalhost (name ++ ":" ++ port) =
        (name == "localhost" || name == "host.docker.internal" || name == "db")) ∧
    isLocalhost "127.0.0.1" = false ∧
    isLocalhost "localhost:5432" = true ∧
    isLocalhost "host.docker.internal:5432" = true ∧
    isLocalhost "db:5432" = true ∧
    (∀ host, isLocalhost host = true →
      firstHostSegment host = "localhost" ∨ firstHostSegment host = "host.docker.internal" ∨
        firstHostSegment host = "db") := by
  refine ⟨fun name port h => ?_, by decide, by decide, by decide, by decide,
    fun host h => ?_⟩
  · have hdata : (name ++ ":" ++ port).data = name.data ++ ':' :: port.data := by
      rw [str_data_append, str_data_append]
      simp
    have hall : ∀ x ∈ name.data, (fun c => decide (c ≠ ':')) x = true := by
      intro x hx
      simpa using h x hx
    have hseg : firstHostSegment (name ++ ":" ++ port) = name := by
      rw [firstHostSegment, hdata, takeWhile_all_append _ _ _ hall ':' (by decide)]
    rw [isLocalhost, hseg]
  · rw [isLocalhost] at h
    simpa [Bool.or_eq_true, beq_iff_eq, or_assoc] using h

/-- C10 witness: the allow-list conjunct applied at the concrete host
`localhost` with port `5432`. -/
theorem isLocalhost_allowlist_witness :
    isLocalhost ("localhost" ++ ":" ++ "5432") =
      ("localhost" == "localhost" || "localhost" == "host.docker.internal" ||
        "localhost" == "db") :=
  isLocalhost_allowlist.1 "localhost" "5432" (by decide)

/-! ## Claim theorems: transaction read path -/

/-- C4: a Transaction holding a non-nil recorded error returns that same
error from `List` unchanged, without calling the backend, querying the cache,
writing the destination, or touching the pending-view queue. -/
theorem txnList_error_short_circuit {α : Type} (tx : Txn α) (q : QueryOpts)
    (b : Except Err α) (e : Err) (h : tx.err = some e) :
    txnList tx q b = ListOutcome.mk (some e) none tx.views false false := by
  rw [txnList.eq_def, h]
  rfl

/-- C4 witness: the short-circuit at a concrete transaction holding the error
"boom". -/
theorem txnList_error_short_circuit_witness :
    txnList txErr qC1 (Except.ok 42) = ListOutcome.mk (some "boom") none txErr.views false false :=
  txnList_error_short_circuit txErr qC1 (Except.ok 42) "boom" (by decide)

/-- C9: on an error-free Transaction whose query fingerprint is in the view
cache, `List` copies the cached value into the destination and returns nil:
the backend is not called and no view is enqueued. -/
theorem txnList_cache_hit {α : Type} (tx : Txn α) (q : QueryOpts) (b : Except Err α)
    (cv : α) (h : tx.err = none) (hc : cacheGet tx.cache (cacheKeyOf q) = some cv) :
    txnList tx q b = ListOutcome.mk none (some cv) tx.views false true := by
  rw [txnList.eq_def, h, hc]
  rfl

/-- C9 witness: a cache hit at a concrete transaction returns the cached
value 99 without a backend call or a new pending view. -/
theorem txnList_cache_hit_witness :
    txnList txHit qHit (Except.ok 42) = ListOutcome.mk none (some 99) txHit.views false true :=
  txnList_cache_hit txHit qHit (Except.ok 42) 99 (by decide) (by decide)

/-- C1 counterexample: on a Transaction whose pending-view queue is at
capacity (capacity 1, one buffered view), an error-free cache-missing `List`
whose backend call succeeds returns the "read batch size exhausted" error
while the backend List call IS made — refuting "without contacting the
backend". -/
theorem txnList_full_queue_contacts_backend :
    (txnList txFull qC1 (Except.ok 42)).result = some batchExhaustedErr ∧
    (txnList txFull qC1 (Except.ok 42)).backendCalled = true := by
  decide

/-- C1 amended: on a Transaction whose pending-view queue is at capacity, an
error-free `List` that misses the cache and whose backend call succeeds
returns the "read batch size exhausted" error; the backend List call is made
first, the destination is written, and the queue is left unchanged. -/
theorem txnList_full_queue_batchExhausted {α : Type} (tx : Txn α) (q : QueryOpts)
    (v : α) (h : tx.err = none) (hc : cacheGet tx.cache (cacheKeyOf q) = none)
    (hcap : tx.viewCap ≤ tx.views.length) :
    txnList tx q (Except.ok v) =
      ListOutcome.mk (some batchExhaustedErr) (some v) tx.views true true := by
  rw [txnList.eq_def, h, hc]
  simp [Nat.not_lt.mpr hcap]

/-- C1 amended witness: the full-queue behaviour at the concrete transaction
`txFull`. -/
theorem txnList_full_queue_batchExhausted_witness :
    txnList txFull qC1 (Except.ok 42) =
      ListOutcome.mk (some batchExhaustedErr) (some 42) txFull.views true true :=
  txnList_full_queue_batchExhausted txFull qC1 42 (by decide) (by decide) (by decide)

/-! ## Helper lemmas for the orchestrator -/

theorem catchAllPhase_ok (o : Oracle) (dir : String) (pr : List GOp × Option GErr)
    (h : pr.2 = none) :
    catchAllPhase o dir pr = (pr.1 ++ [GOp.upAll dir], o pr.1 (GOp.upAll dir)) := by
  simp [catchAllPhase, h]

theorem catchAllPhase_skip (o : Oracle) (dir : String) (pr : List GOp × Option GErr)
    (g : GErr) (h : pr.2 = some g) : catchAllPhase o dir pr = pr := by
  simp [catchAllPhase, h]

theorem rollbackPhase_fatal (dir : String) (seeds : List (Int × String))
    (pr : List GOp × Option GErr) (n : Nat) (h : pr.2 = some (GErr.fatal n)) :
    rollbackPhase dir seeds pr =
      (pr.1 ++ GOp.down dir :: seeds.map (fun s => GOp.down s.2), some (GErr.fatal n)) := by
  obtain ⟨tr, e⟩ := pr
  simp only at h
  subst h
  rfl

theorem rollbackPhase_noNext (dir : String) (seeds : List (Int × String))
    (pr : List GOp × Option GErr) (h : pr.2 = some GErr.noNext) :
    rollbackPhase dir seeds pr = (pr.1, none) := by
  obtain ⟨tr, e⟩ := pr
  simp only at h
  subst h
  rfl

theorem rollbackPhase_ok (dir : String) (seeds : List (Int × String))
    (pr : List GOp × Option GErr) (h : pr.2 = none) :
    rollbackPhase dir seeds pr = (pr.1, none) := by
  obtain ⟨tr, e⟩ := pr
  simp only at h
  subst h
  rfl

theorem interleavePhase_true (o : Oracle) (inp : MigInput) :
    interleavePhase o true inp =
      runLoop o inp.migrationDirectory (seedsOf true inp).1 (seedsOf true inp).2 inp.dbVersion
        (List.range (Nat.max (maxMigVersion inp.migrationEntries) (seedsOf true inp).1.length))
        [] none := rfl

theorem interleavePhase_false (o : Oracle) (inp : MigInput) :
    interleavePhase o false inp = ([], none) := rfl

theorem applyMigration_trace (o : Oracle) (lh : Bool) (inp : MigInput) :
    (applyMigration o lh inp).trace =
      (rollbackPhase inp.migrationDirectory (seedsOf lh inp).1
        (catchAllPhase o inp.migrationDirectory (interleavePhase o lh inp))).1 := rfl

theorem applyMigration_err (o : Oracle) (lh : Bool) (inp : MigInput) :
    (applyMigration o lh inp).err =
      (rollbackPhase inp.migrationDirectory (seedsOf lh inp).1
        (catchAllPhase o inp.migrationDirectory (interleavePhase o lh inp))).2 := rfl

theorem runLoop_trace_no_fatal (o : Oracle) (dir : String) (seeds : List (Int × String))
    (minSeed dbVer : Int) (ho : ∀ tr op n, o tr op ≠ some (GErr.fatal n)) :
    ∀ (is : List Nat) (tr : List GOp) (e : Option GErr),
      (runLoop o dir seeds minSeed dbVer is tr e).1 =
        tr ++ interleaveSpec dir seeds minSeed dbVer is
  | [], tr, e => by simp [runLoop, interleaveSpec]
  | i :: rest, tr, e => by
    rw [runLoop.eq_def]
    rcases hr : o tr (GOp.upTo dir (i + 1)) with _ | g
    · rcases hs : lookupSeed seeds (Int.ofNat i + minSeed) with _ | sd
      · simp only [hr, hs, interleaveSpec,
          runLoop_trace_no_fatal o dir seeds minSeed dbVer ho rest (tr ++ [GOp.upTo dir (i + 1)]) none]
        simp
      · by_cases hgt : Int.ofNat i + minSeed > dbVer
        · rcases hr2 : o (tr ++ [GOp.upTo dir (i + 1)]) (GOp.upSeed sd) with _ | g2
          · simp only [hr, hs, hgt, if_true, hr2, interleaveSpec,
              runLoop_trace_no_fatal o dir seeds minSeed dbVer ho rest
                (tr ++ [GOp.upTo dir (i + 1), GOp.upSeed sd]) none]
            simp [hgt]
          · cases g2 with
            | noNext =>
              simp only [hr, hs, hgt, if_true, hr2, interleaveSpec,
                runLoop_trace_no_fatal o dir seeds minSeed dbVer ho rest
                  (tr ++ [GOp.upTo dir (i + 1), GOp.upSeed sd]) (some GErr.noNext)]
              simp [hgt]
            | fatal n => exact absurd hr2 (ho _ _ n)
        · simp only [hr, hs, hgt, if_false, interleaveSpec,
            runLoop_trace_no_fatal o dir seeds minSeed dbVer ho rest
              (tr ++ [GOp.upTo dir (i + 1)]) none]
          simp [hgt]
    · cases g with
      | fatal n => exact absurd hr (ho _ _ n)
      | noNext =>
        rcases hs : lookupSeed seeds (Int.ofNat i + minSeed) with _ | sd
        · simp only [hr, hs, interleaveSpec,
            runLoop_trace_no_fatal o dir seeds minSeed dbVer ho rest
              (tr ++ [GOp.upTo dir (i + 1)]) (some GErr.noNext)]
          simp
        · by_cases hgt : Int.ofNat i + minSeed > dbVer
          · rcases hr2 : o (tr ++ [GOp.upTo dir (i + 1)]) (GOp.upSeed sd) with _ | g2
            · simp only [hr, hs, hgt, if_true, hr2, interleaveSpec,
                runLoop_trace_no_fatal o dir seeds minSeed dbVer ho rest
                  (tr ++ [GOp.upTo dir (i + 1), GOp.upSeed sd]) none]
              simp [hgt]
            · cases g2 with
              | noNext =>
                simp only [hr, hs, hgt, if_true, hr2, interleaveSpec,
                  runLoop_trace_no_fatal o dir seeds minSeed dbVer ho rest
                    (tr ++ [GOp.upTo dir (i + 1), GOp.upSeed sd]) (some GErr.noNext)]
                simp [hgt]
              | fatal n => exact absurd hr2 (ho _ _ n)
          · simp only [hr, hs, hgt, if_false, interleaveSpec,
              runLoop_trace_no_fatal o dir seeds minSeed dbVer ho rest
                (tr ++ [GOp.upTo dir (i + 1)]) (some GErr.noNext)]
            simp [hgt]

theorem runLoop_no_upAll (o : Oracle) (dir d2 : String) (seeds : List (Int × String))
    (minSeed dbVer : Int) :
    ∀ (is : List Nat) (tr : List GOp) (e : Option GErr),
      GOp.upAll d2 ∉ tr → GOp.upAll d2 ∉ (runLoop o dir seeds minSeed dbVer is tr e).1
  | [], tr, e, htr => by simpa [runLoop] using htr
  | i :: rest, tr, e, htr => by
    have h1 : GOp.upAll d2 ∉ tr ++ [GOp.upTo dir (i + 1)] := by
      simp [List.mem_append, htr]
    have h2 : ∀ (sd : String), GOp.upAll d2 ∉ tr ++ [GOp.upTo dir (i + 1), GOp.upSeed sd] :=
      fun sd => by simp [List.mem_append, htr]
    rw [runLoop.eq_2]
    rcases hr : o tr (GOp.upTo dir (i + 1)) with _ | g
    · rcases hs : lookupSeed seeds (Int.ofNat i + minSeed) with _ | sd
      · simp only [hs]
        exact runLoop_no_upAll o dir d2 seeds minSeed dbVer rest (tr ++ [GOp.upTo dir (i + 1)]) none h1
      · simp only [hs]
        by_cases hgt : Int.ofNat i + minSeed > dbVer
        · rw [if_pos hgt]
          rcases hr2 : o (tr ++ [GOp.upTo dir (i + 1)]) (GOp.upSeed sd) with _ | g2
          · exact runLoop_no_upAll o dir d2 seeds minSeed dbVer rest
              (tr ++ [GOp.upTo dir (i + 1), GOp.upSeed sd]) none (h2 sd)
          · cases g2 with
            | noNext =>
              exact runLoop_no_upAll o dir d2 seeds minSeed dbVer rest
                (tr ++ [GOp.upTo dir (i + 1), GOp.upSeed sd]) (some GErr.noNext) (h2 sd)
            | fatal n => exact h2 sd
        · rw [if_neg hgt]
          exact runLoop_no_upAll o dir d2 seeds minSeed dbVer rest (tr ++ [GOp.upTo dir (i + 1)]) none h1
    · cases g with
      | fatal n => exact h1
      | noNext =>
        rcases hs : lookupSeed seeds (Int.ofNat i + minSeed) with _ | sd
        · simp only [hs]
          exact runLoop_no_upAll o dir d2 seeds minSeed dbVer rest (tr ++ [GOp.upTo dir (i + 1)])
            (some GErr.noNext) h1
        · simp only [hs]
          by_cases hgt : Int.ofNat i + minSeed > dbVer
          · rw [if_pos hgt]
            rcases hr2 : o (tr ++ [GOp.upTo dir (i + 1)]) (GOp.upSeed sd) with _ | g2
            · exact runLoop_no_upAll o dir d2 seeds minSeed dbVer rest
                (tr ++ [GOp.upTo dir (i + 1), GOp.upSeed sd]) none (h2 sd)
            · cases g2 with
              | noNext =>
                exact runLoop_no_upAll o dir d2 seeds minSeed dbVer rest
                  (tr ++ [GOp.upTo dir (i + 1), GOp.upSeed sd]) (some GErr.noNext) (h2 sd)
              | fatal n => exact h2 sd
          · rw [if_neg hgt]
            exact runLoop_no_upAll o dir d2 seeds minSeed dbVer rest (tr ++ [GOp.upTo dir (i + 1)])
              (some GErr.noNext) h1

/-! ## Claim theorems: migration/seed orchestrator -/

/-- C3: the interleaving loop runs `max(maxMigrationVersion, count(seeds))`
iterations pairing seeds with iterations by index (`seedVersion = i +
minSeedVersion`): on migrations {1,2,3} and seeds {1 ↦ seedA, 2 ↦ seedB} with
recorded version 0 on a local host the backend observes exactly migration 1,
seedA, migration 2, seedB, migration 3, then the final catch-all; in general
the interleave trace of any run without fatal failures is the index-paired
sequence `interleaveSpec`. -/
theorem applyMigration_interleaves_by_index :
    Nat.max (maxMigVersion migC3.migrationEntries) (seedsOf true migC3).1.length = 3 ∧
    (applyMigration okOracle true migC3).trace =
      [GOp.upTo "migrations" 1, GOp.upSeed "seeds/1_seedA", GOp.upTo "migrations" 2,
       GOp.upSeed "seeds/2_seedB", GOp.upTo "migrations" 3, GOp.upAll "migrations"] ∧
    (applyMigration okOracle true migC3).err = none ∧
    (∀ (o : Oracle) (inp : MigInput), (∀ tr op n, o tr op ≠ some (GErr.fatal n)) →
      (interleavePhase o true inp).1 =
        interleaveSpec inp.migrationDirectory (seedsOf true inp).1 (seedsOf true inp).2
          inp.dbVersion
          (List.range (Nat.max (maxMigVersion inp.migrationEntries)
            (seedsOf true inp).1.length))) := by
  refine ⟨by decide, by decide, by decide, fun o inp ho => ?_⟩
  rw [interleavePhase_true]
  simpa using runLoop_trace_no_fatal o inp.migrationDirectory (seedsOf true inp).1
    (seedsOf true inp).2 inp.dbVersion ho
    (List.range (Nat.max (maxMigVersion inp.migrationEntries) (seedsOf true inp).1.length))
    [] none

/-- C3 witness: the general interleave-shape conjunct applied at the
all-success oracle and the concrete {1,2,3}/{seedA,seedB} input. -/
theorem applyMigration_interleaves_by_index_witness :
    (interleavePhase okOracle true migC3).1 =
      interleaveSpec migC3.migrationDirectory (seedsOf true migC3).1 (seedsOf true migC3).2
        migC3.dbVersion
        (List.range (Nat.max (maxMigVersion migC3.migrationEntries)
          (seedsOf true migC3).1.length)) :=
  applyMigration_interleaves_by_index.2.2.2 okOracle migC3
    (fun tr op n => by simp [okOracle])

/-- C2: when an interleaved or catch-all step fails fatally (any error other
than nil and "no next version"), the orchestrator issues rollback operations
for the migration directory and for every enumerated seed directory, the error
is surfaced as the run's result, and `NewSQL` on a migration-configured
backend returns an error instead of a usable backend. -/
theorem applyMigration_fatal_rolls_back (o : Oracle) (host : String) (inp : MigInput)
    (n : Nat) (hdir : inp.migrationDirectory ≠ "")
    (hf : (catchAllPhase o inp.migrationDirectory
      (interleavePhase o (isLocalhost host) inp)).2 = some (GErr.fatal n)) :
    (applyMigration o (isLocalhost host) inp).err = some (GErr.fatal n) ∧
    (applyMigration o (isLocalhost host) inp).trace =
      (catchAllPhase o inp.migrationDirectory (interleavePhase o (isLocalhost host) inp)).1 ++
        GOp.down inp.migrationDirectory ::
          (seedsOf (isLocalhost host) inp).1.map (fun s => GOp.down s.2) ∧
    NewSQL o "postgres" host true (some inp) =
      Except.error (NewSQLErr.migrationErr (GErr.fatal n)) := by
  have hrb := rollbackPhase_fatal inp.migrationDirectory (seedsOf (isLocalhost host) inp).1
    (catchAllPhase o inp.migrationDirectory (interleavePhase o (isLocalhost host) inp)) n hf
  have herr : (applyMigration o (isLocalhost host) inp).err = some (GErr.fatal n) := by
    rw [applyMigration_err, hrb]
  refine ⟨herr, ?_, ?_⟩
  · rw [applyMigration_trace, hrb]
  · simp [NewSQL, hdir, herr]

/-- C2 witness: a fatal failure on the migration step targeting version 2,
with migrations {1,2} and seed {1 ↦ seedA} on the local host
`localhost:5432`. -/
theorem applyMigration_fatal_rolls_back_witness :
    (applyMigration failV2Oracle (isLocalhost "localhost:5432") migC2).err =
      some (GErr.fatal 7) ∧
    (applyMigration failV2Oracle (isLocalhost "localhost:5432") migC2).trace =
      (catchAllPhase failV2Oracle migC2.migrationDirectory
        (interleavePhase failV2Oracle (isLocalhost "localhost:5432") migC2)).1 ++
        GOp.down migC2.migrationDirectory ::
          (seedsOf (isLocalhost "localhost:5432") migC2).1.map (fun s => GOp.down s.2) ∧
    NewSQL failV2Oracle "postgres" "localhost:5432" true (some migC2) =
      Except.error (NewSQLErr.migrationErr (GErr.fatal 7)) :=
  applyMigration_fatal_rolls_back failV2Oracle "localhost:5432" migC2 7 (by decide) (by decide)

/-- C6 counterexample: with migrations {1,2}, no seeds, and a backend already
at version 2 (every `UpTo` reports "no next version"), the run succeeds, no
interleaved step failed, the loop ended on "no next version" — and the final
catch-all forward-migration is NOT executed, refuting the claim that it runs
even in that case. -/
theorem catchAll_skipped_after_noNext :
    (interleavePhase noNextOracle true migC6).2 = some GErr.noNext ∧
    (applyMigration noNextOracle true migC6).err = none ∧
    GOp.upAll "migrations" ∉ (applyMigration noNextOracle true migC6).trace := by
  decide

/-- C6 amended: the final catch-all forward-migration runs exactly when the
interleaving phase left a nil error variable (in particular always on
non-local hosts, where the loop never runs); when the loop's last recorded
result was "no next version" the catch-all is skipped, although the run still
returns success. -/
theorem catchAll_iff_clean_interleave :
    (∀ (o : Oracle) (lh : Bool) (inp : MigInput), (interleavePhase o lh inp).2 = none →
      GOp.upAll inp.migrationDirectory ∈ (applyMigration o lh inp).trace) ∧
    (∀ (o : Oracle) (lh : Bool) (inp : MigInput),
      (interleavePhase o lh inp).2 = some GErr.noNext →
      GOp.upAll inp.migrationDirectory ∉ (applyMigration o lh inp).trace) := by
  constructor
  · intro o lh inp h
    rw [applyMigration_trace, catchAllPhase_ok o inp.migrationDirectory _ h]
    rcases hrb : o (interleavePhase o lh inp).1 (GOp.upAll inp.migrationDirectory) with _ | g
    · rw [rollbackPhase_ok _ _ _ (by simp [hrb])]
      simp
    · cases g with
      | noNext =>
        rw [rollbackPhase_noNext _ _ _ (by simp [hrb])]
        simp
      | fatal n =>
        rw [rollbackPhase_fatal _ _ _ n (by simp [hrb])]
        simp
  · intro o lh inp h
    cases lh with
    | false => simp [interleavePhase_false] at h
    | true =>
      rw [applyMigration_trace, catchAllPhase_skip o inp.migrationDirectory _ GErr.noNext h,
        rollbackPhase_noNext _ _ _ h, interleavePhase_true]
      exact runLoop_no_upAll o inp.migrationDirectory inp.migrationDirectory
        (seedsOf true inp).1 (seedsOf true inp).2 inp.dbVersion
        (List.range (Nat.max (maxMigVersion inp.migrationEntries) (seedsOf true inp).1.length))
        [] none (by simp)

/-- C6 amended witness: on a non-local host the interleave phase trivially
ends clean and the catch-all is issued. -/
theorem catchAll_iff_clean_interleave_witness :
    GOp.upAll migC8.migrationDirectory ∈ (applyMigration okOracle false migC8).trace :=
  catchAll_iff_clean_interleave.1 okOracle false migC8 (by decide)

/-- C8: on a non-local host the orchestrator reads only the migration
directory (the seed directory is never enumerated), builds no seed mapping,
issues no seed operation whatsoever, and — when the run succeeds — its whole
backend trace is exactly the final catch-all forward-migration. -/
theorem nonlocal_skips_seeds (o : Oracle) (inp : MigInput) :
    (applyMigration o false inp).dirsRead = [inp.migrationDirectory] ∧
    (seedsOf false inp).1 = [] ∧
    (∀ s, GOp.upSeed s ∉ (applyMigration o false inp).trace) ∧
    ((applyMigration o false inp).err = none →
      (applyMigration o false inp).trace = [GOp.upAll inp.migrationDirectory]) := by
  have hseeds : seedsOf false inp = ([], -1) := by simp [seedsOf]
  have hca : catchAllPhase o inp.migrationDirectory (interleavePhase o false inp) =
      ([GOp.upAll inp.migrationDirectory], o [] (GOp.upAll inp.migrationDirectory)) := by
    rw [interleavePhase_false, catchAllPhase_ok o inp.migrationDirectory ([], none) rfl]
    simp
  have key : ((applyMigration o false inp).trace = [GOp.upAll inp.migrationDirectory] ∧
        (applyMigration o false inp).err = none) ∨
      (∃ n, (applyMigration o false inp).trace =
          [GOp.upAll inp.migrationDirectory, GOp.down inp.migrationDirectory] ∧
        (applyMigration o false inp).err = some (GErr.fatal n)) := by
    rw [applyMigration_trace, applyMigration_err, hca, hseeds]
    rcases hrb : o [] (GOp.upAll inp.migrationDirectory) with _ | g
    · rw [rollbackPhase_ok _ _ _ rfl]
      exact Or.inl ⟨rfl, rfl⟩
    · cases g with
      | noNext =>
        rw [rollbackPhase_noNext _ _ _ rfl]
        exact Or.inl ⟨rfl, rfl⟩
      | fatal n =>
        rw [rollbackPhase_fatal _ _ _ n rfl]
        exact Or.inr ⟨n, by simp, rfl⟩
  refine ⟨rfl, by rw [hseeds], ?_, ?_⟩
  · intro s
    rcases key with ⟨h1, _⟩ | ⟨n, h1, _⟩ <;> rw [h1] <;> simp
  · intro he
    rcases key with ⟨h1, _⟩ | ⟨n, h1, h2⟩
    · exact h1
    · rw [he] at h2
      exact absurd h2.symm (by simp)

/-- C8 witness: a non-local run over a populated seed directory succeeds with
the catch-all as its only backend operation. -/
theorem nonlocal_skips_seeds_witness :
    (applyMigration okOracle false migC8).trace = [GOp.upAll migC8.migrationDirectory] :=
  (nonlocal_skips_seeds okOracle migC8).2.2.2 (by decide)
